import Mathlib

/-!
Verification development for the DisasterPaws backend (src/index.ts).

The TypeScript service keeps all state in memory: a registry of incidents
and an append-only list of approval events.  This file gives a shallow
embedding of that state and of the request handlers that mutate it
(POST /incidents, POST /incidents/:id/review, /reopen, /execute,
GET /incidents), together with the pure triage scorer.

Modelling notes:
* JavaScript numbers are embedded as exact rationals.  Every value the
  scorer can produce (0.3, 0.5, 0.55, 0.7, 0.75, 0.95 and the thresholds
  0.55, 0.75) is a short dyadic/decimal value on which IEEE-754 double
  arithmetic as performed by the source (0.5 + 0.25 + 0.2 etc., toFixed(2),
  comparisons) agrees exactly with rational arithmetic, so the embedding is
  observationally faithful.  Decimal constants are written as fractions:
  0.5 = 1/2, 0.25 = 1/4, 0.2 = 1/5, 0.75 = 3/4, 0.55 = 11/20.
* randomUUID() and Date.now() are nondeterministic in the source; the
  embedding draws ids from a per-state counter (uniqueness is all the code
  relies on) and takes timestamps as explicit arguments of each operation.
* The JS Map with fresh ids is embedded as a list in insertion order;
  in-place mutation of an incident object becomes replacement of the
  entry with the matching id.
-/

/-- The five lifecycle states of an incident (type IncidentStatus). -/
inductive IncidentStatus where
  | draft
  | needs_human_review
  | approved
  | rejected
  | executed
deriving DecidableEq, Repr

/-- Priorities P1/P2/P3. -/
inductive Priority where
  | P1
  | P2
  | P3
deriving DecidableEq, Repr

/-- The optional urgency hint accepted by the scorer. -/
inductive UrgencyHint where
  | low
  | medium
  | high
deriving DecidableEq, Repr

/-- Review decisions (type ApprovalDecision). -/
inductive ApprovalDecision where
  | approve
  | reject
deriving DecidableEq, Repr

/-- The Incident record of the source.  Optional fields are Options;
timestamps are abstract Nats. -/
structure Incident where
  id : Nat
  createdAt : Nat
  updatedAt : Nat
  report : String
  location : String
  suggestedPriority : Priority
  confidence : ℚ
  finalPriority : Option Priority
  status : IncidentStatus
  reviewReason : Option String
  reviewedBy : Option String
deriving DecidableEq, Repr

/-- The ApprovalEvent audit record of the source.  The source fields
`from`/`to` are Lean keywords, hence `from_`/`to_`. -/
structure ApprovalEvent where
  id : Nat
  incidentId : Nat
  from_ : IncidentStatus
  to_ : IncidentStatus
  actor : String
  reason : Option String
  createdAt : Nat
deriving DecidableEq, Repr

/-- The legal-transition table `transitions` of the source. -/
def transitions : IncidentStatus → List IncidentStatus
  | .draft => [.needs_human_review]
  | .needs_human_review => [.approved, .rejected]
  | .approved => [.executed]
  | .rejected => [.needs_human_review]
  | .executed => []

/-- function canTransition(from, to) of the source. -/
def canTransition (from_ to_ : IncidentStatus) : Bool :=
  (transitions from_).contains to_

/-- Substring test on character lists (the semantics of a fixed-string
regex test). -/
def charsContain (needle : List Char) : List Char → Bool
  | [] => needle.isEmpty
  | c :: rest => needle.isPrefixOf (c :: rest) || charsContain needle rest

/-- The alternatives of the source regex /injur|bleed|stuck|flood|fire|heat|cold/i. -/
def urgencyKeywords : List String :=
  ["injur", "bleed", "stuck", "flood", "fire", "heat", "cold"]

/-- Whether the report matches the urgency regex: some keyword occurs as a
substring of the report, case-insensitively (the /i flag, ASCII lowering). -/
def keywordMatch (report : String) : Bool :=
  urgencyKeywords.any fun kw =>
    charsContain kw.toList (report.toList.map Char.toLower)

/-- Number(score.toFixed(2)): round to 2 decimal places, ties away from
zero (all scores are nonnegative, so floor of x*100 + 1/2 matches). -/
def roundTo2 (q : ℚ) : ℚ :=
  ((⌊q * 100 + 1/2⌋ : ℤ) : ℚ) / 100

/-- Math.max(0, Math.min(1, score)) of the source. -/
def clamp01 (q : ℚ) : ℚ :=
  max 0 (min 1 q)

/-- The value of `score` in function triage just before the clamp on
line 66: 0.5, +0.25 on keyword match, then +0.2 when the hint is high and
-0.2 when it is low (the two mutually exclusive strict-equality checks of
the source become one match). -/
def preClampScore (report : String) (urgencyHint : Option UrgencyHint) : ℚ :=
  let s0 : ℚ := 1/2
  let s1 := if keywordMatch report then s0 + 1/4 else s0
  match urgencyHint with
  | some .high => s1 + 1/5
  | some .low => s1 - 1/5
  | _ => s1

/-- The record returned by function triage. -/
structure TriageResult where
  suggestedPriority : Priority
  confidence : ℚ
deriving DecidableEq, Repr

/-- function triage(report, urgencyHint) of the source: clamp the score,
choose P1 above 0.75, P2 above 0.55, else P3, and report the clamped score
rounded to two decimals as confidence. -/
def triage (report : String) (urgencyHint : Option UrgencyHint) : TriageResult :=
  let score := clamp01 (preClampScore report urgencyHint)
  { suggestedPriority :=
      if score > 3/4 then .P1 else if score > 11/20 then .P2 else .P3
    confidence := roundTo2 score }

/-- The whole in-memory state: the incidents Map (insertion order) and the
append-only approvalEvents array, plus the id supply. -/
structure ServerState where
  incidents : List Incident
  approvalEvents : List ApprovalEvent
  nextId : Nat
deriving DecidableEq, Repr

/-- The state at process start: both collections empty. -/
def initState : ServerState :=
  { incidents := [], approvalEvents := [], nextId := 0 }

/-- incidents.get(id). -/
def findIncident (s : ServerState) (id : Nat) : Option Incident :=
  s.incidents.find? fun i => i.id == id

/-- In-place mutation of the incident object with the given id. -/
def updateIncident (l : List Incident) (id : Nat) (newInc : Incident) :
    List Incident :=
  l.map fun i => if i.id = id then newInc else i

/-- The data carried by the InvalidTransition error message
observed on line 79 of the source. -/
structure TransitionError where
  from_ : IncidentStatus
  to_ : IncidentStatus
deriving DecidableEq, Repr

/-- function transitionIncident of the source: check the edge, then build
the event and update status/updatedAt.  Mutation becomes returning the
updated incident together with the event; the thrown error becomes
Except.error carrying the attempted (from, to) pair. -/
def transitionIncident (incident : Incident) (to_ : IncidentStatus)
    (actor : String) (reason : Option String) (eventId now : Nat) :
    Except TransitionError (Incident × ApprovalEvent) :=
  if canTransition incident.status to_ then
    let event : ApprovalEvent :=
      { id := eventId
        incidentId := incident.id
        from_ := incident.status
        to_ := to_
        actor := actor
        reason := reason
        createdAt := now }
    .ok ({ incident with status := to_, updatedAt := now }, event)
  else
    .error { from_ := incident.status, to_ := to_ }

/-- Outcome of a lifecycle request, as observable by the HTTP caller:
404 Not Found, 409 with the invalid-transition pair, or 200/201 with the
incident (and the event, where the handler returns one). -/
inductive OpResult where
  | notFound
  | invalidTransition (e : TransitionError)
  | ok (incident : Incident) (event : ApprovalEvent)
deriving DecidableEq, Repr

/-- POST /incidents: triage the report, insert the incident in `draft`,
then immediately transition it to needs_human_review with the fixed
actor-supplied transition (reason "Auto-routed for HITL review").
The source takes two Date.now() readings (creation and transition), hence
the two timestamps.  The transition cannot fail (draft →
needs_human_review is legal); the error branch keeps the draft incident
in the registry exactly as the source would. -/
def createIncident (s : ServerState) (report location : String)
    (urgencyHint : Option UrgencyHint) (actor : String) (now tnow : Nat) :
    ServerState × Incident :=
  let t := triage report urgencyHint
  let incident : Incident :=
    { id := s.nextId
      createdAt := now
      updatedAt := now
      report := report
      location := location
      suggestedPriority := t.suggestedPriority
      confidence := t.confidence
      finalPriority := none
      status := .draft
      reviewReason := none
      reviewedBy := none }
  match transitionIncident incident .needs_human_review actor
      (some "Auto-routed for HITL review") (s.nextId + 1) tnow with
  | .ok (inc, ev) =>
      ({ incidents := s.incidents ++ [inc]
         approvalEvents := s.approvalEvents ++ [ev]
         nextId := s.nextId + 2 }, inc)
  | .error _ =>
      ({ incidents := s.incidents ++ [incident]
         approvalEvents := s.approvalEvents
         nextId := s.nextId + 1 }, incident)

/-- The target status computed by the review handler from the decision. -/
def reviewTarget : ApprovalDecision → IncidentStatus
  | .approve => .approved
  | .reject => .rejected

/-- The field mutations lines 193-197 of the review handler apply to the
incident object before the transition is attempted: on approve,
finalPriority becomes the caller's value or the suggested one; both
reviewReason and reviewedBy are overwritten. -/
def reviewMutated (incident : Incident) (decision : ApprovalDecision)
    (actor reason : String) (finalPriority : Option Priority) : Incident :=
  { incident with
      finalPriority :=
        if decision = .approve then
          some (finalPriority.getD incident.suggestedPriority)
        else incident.finalPriority
      reviewReason := some reason
      reviewedBy := some actor }

/-- POST /incidents/:id/review: mutate the fields first (the object in
the registry is mutated in place, so this persists even when the
transition fails), then attempt the transition; status and updatedAt
change only on success. -/
def reviewIncident (s : ServerState) (id : Nat) (decision : ApprovalDecision)
    (actor reason : String) (finalPriority : Option Priority) (now : Nat) :
    ServerState × OpResult :=
  match findIncident s id with
  | none => (s, .notFound)
  | some incident =>
      match transitionIncident
          (reviewMutated incident decision actor reason finalPriority)
          (reviewTarget decision) actor (some reason) s.nextId now with
      | .ok (inc2, ev) =>
          ({ incidents := updateIncident s.incidents id inc2
             approvalEvents := s.approvalEvents ++ [ev]
             nextId := s.nextId + 1 }, .ok inc2 ev)
      | .error e =>
          ({ s with
               incidents :=
                 updateIncident s.incidents id
                   (reviewMutated incident decision actor reason finalPriority) },
           .invalidTransition e)

/-- POST /incidents/:id/reopen: attempt the transition to
needs_human_review with the caller's actor and reason.  No incident field
other than status/updatedAt is touched. -/
def reopenIncident (s : ServerState) (id : Nat) (actor reason : String)
    (now : Nat) : ServerState × OpResult :=
  match findIncident s id with
  | none => (s, .notFound)
  | some incident =>
      match transitionIncident incident .needs_human_review actor
          (some reason) s.nextId now with
      | .ok (inc2, ev) =>
          ({ incidents := updateIncident s.incidents id inc2
             approvalEvents := s.approvalEvents ++ [ev]
             nextId := s.nextId + 1 }, .ok inc2 ev)
      | .error e => (s, .invalidTransition e)

/-- POST /incidents/:id/execute: attempt the transition to executed with
the fixed reason "Dispatch executed". -/
def executeIncident (s : ServerState) (id : Nat) (actor : String)
    (now : Nat) : ServerState × OpResult :=
  match findIncident s id with
  | none => (s, .notFound)
  | some incident =>
      match transitionIncident incident .executed actor
          (some "Dispatch executed") s.nextId now with
      | .ok (inc2, ev) =>
          ({ incidents := updateIncident s.incidents id inc2
             approvalEvents := s.approvalEvents ++ [ev]
             nextId := s.nextId + 1 }, .ok inc2 ev)
      | .error e => (s, .invalidTransition e)

/-- The z.enum status parse of the GET /incidents query schema. -/
def parseStatus : String → Option IncidentStatus
  | "draft" => some .draft
  | "needs_human_review" => some .needs_human_review
  | "approved" => some .approved
  | "rejected" => some .rejected
  | "executed" => some .executed
  | _ => none

/-- GET /incidents: with no status query, or with a status string the
enum schema rejects (safeParse failure), return all incidents; with a
valid status, filter. -/
def listIncidents (s : ServerState) (statusQuery : Option String) :
    List Incident :=
  match statusQuery with
  | none => s.incidents
  | some q =>
      match parseStatus q with
      | none => s.incidents
      | some st => s.incidents.filter fun i => i.status = st

/-- One state-mutating API request (the GET endpoints do not mutate). -/
inductive Op where
  | create (report location : String) (urgencyHint : Option UrgencyHint)
      (actor : String) (now tnow : Nat)
  | review (id : Nat) (decision : ApprovalDecision) (actor reason : String)
      (finalPriority : Option Priority) (now : Nat)
  | reopen (id : Nat) (actor reason : String) (now : Nat)
  | execute (id : Nat) (actor : String) (now : Nat)

/-- The state after serving one request. -/
def applyOp (s : ServerState) : Op → ServerState
  | .create report location hint actor now tnow =>
      (createIncident s report location hint actor now tnow).1
  | .review id decision actor reason fp now =>
      (reviewIncident s id decision actor reason fp now).1
  | .reopen id actor reason now =>
      (reopenIncident s id actor reason now).1
  | .execute id actor now =>
      (executeIncident s id actor now).1

/-- States reachable from process start by any sequence of requests. -/
inductive Reachable : ServerState → Prop where
  | init : Reachable initState
  | step {s : ServerState} (op : Op) : Reachable s → Reachable (applyOp s op)

example : canTransition .draft .needs_human_review = true := by decide
example : canTransition .rejected .needs_human_review = true := by decide
example : canTransition .needs_human_review .needs_human_review = false := by decide

/-- The scorer as the specification words it (section 4.1): a neutral base
of 0.5, plus 0.25 for a keyword match, plus 0.2 for a high hint, minus 0.2
for a low hint, no adjustment otherwise; clamp to [0, 1]; P1 above 0.75,
P2 above 0.55, else P3; confidence is the clamped score rounded to two
decimal places.  Written independently of `triage` to compare the two. -/
def specHintAdjust : Option UrgencyHint → ℚ
  | some .high => 1/5
  | some .low => -(1/5)
  | _ => 0

def specRawScore (report : String) (urgencyHint : Option UrgencyHint) : ℚ :=
  1/2 + (if keywordMatch report then 1/4 else 0) + specHintAdjust urgencyHint

def specClampedScore (report : String) (urgencyHint : Option UrgencyHint) : ℚ :=
  max 0 (min 1 (specRawScore report urgencyHint))

def triageSpec (report : String) (urgencyHint : Option UrgencyHint) : TriageResult :=
  { suggestedPriority :=
      if specClampedScore report urgencyHint > 3/4 then .P1
      else if specClampedScore report urgencyHint > 11/20 then .P2
      else .P3
    confidence :=
      ((⌊specClampedScore report urgencyHint * 100 + 1/2⌋ : ℤ) : ℚ) / 100 }

/-- The report of the specification scenario in section 8. -/
def c7Report : String := "Person trapped under rubble, bleeding heavily"

/-! Concrete request sequences used to exercise the theorems. -/

/-- Create a P1 incident, approve it, execute it. -/
def c1Ops : List Op :=
  [ .create "Fire spreading near the shelter" "Shelter" (some .high) "system" 0 1
  , .review 0 .approve "alice" "confirmed on site" (some .P1) 2
  , .execute 0 "bob" 3 ]

def c1State : ServerState := c1Ops.foldl applyOp initState

/-- The incident of c1State after create, approve, execute. -/
def c1Inc : Incident :=
  { id := 0
    createdAt := 0
    updatedAt := 3
    report := "Fire spreading near the shelter"
    location := "Shelter"
    suggestedPriority := .P1
    confidence := 19/20
    finalPriority := some .P1
    status := .executed
    reviewReason := some "confirmed on site"
    reviewedBy := some "alice" }

/-- Create, reject, then attempt an approve on the rejected incident: the
approve fails, yet the handler has already set finalPriority. -/
def c2Ops : List Op :=
  [ .create "Lost dog wandering around" "Park" none "system" 0 1
  , .review 0 .reject "alice" "not actionable" none 2
  , .review 0 .approve "bob" "changed my mind" none 3 ]

def c2State : ServerState := c2Ops.foldl applyOp initState

/-- A registry holding one already-approved incident. -/
def c3Inc : Incident :=
  { id := 0
    createdAt := 0
    updatedAt := 2
    report := "Lost dog wandering around"
    location := "Park"
    suggestedPriority := .P3
    confidence := 1/2
    finalPriority := some .P1
    status := .approved
    reviewReason := some "looks right"
    reviewedBy := some "alice" }

def c3State : ServerState :=
  { incidents := [c3Inc], approvalEvents := [], nextId := 5 }

/-- Create then reject: leaves the incident rejected. -/
def c5Ops : List Op :=
  [ .create "Lost dog wandering around" "Park" none "system" 0 1
  , .review 0 .reject "alice" "not actionable" none 2 ]

def c5State : ServerState := c5Ops.foldl applyOp initState

/-- The incident of c5State after create and reject. -/
def c5Inc : Incident :=
  { id := 0
    createdAt := 0
    updatedAt := 2
    report := "Lost dog wandering around"
    location := "Park"
    suggestedPriority := .P3
    confidence := 1/2
    finalPriority := none
    status := .rejected
    reviewReason := some "not actionable"
    reviewedBy := some "alice" }

/-- A hypothetical registry entry still in draft (no reachable state
holds one; the record exercises the handler on the draft edge). -/
def c5DraftInc : Incident :=
  { id := 7
    createdAt := 0
    updatedAt := 0
    report := "Sketchy report still in draft"
    location := "Park"
    suggestedPriority := .P3
    confidence := 1/2
    finalPriority := none
    status := .draft
    reviewReason := none
    reviewedBy := none }

def c5DraftState : ServerState :=
  { incidents := [c5DraftInc], approvalEvents := [], nextId := 8 }

/-- Create, reject by alice, then reopen by bob. -/
def c8Ops : List Op :=
  [ .create "Lost dog wandering around" "Park" none "system" 0 1
  , .review 0 .reject "alice" "not actionable" none 2
  , .reopen 0 "bob" "new evidence" 3 ]

def c8State : ServerState := c8Ops.foldl applyOp initState

/-- A registry holding one incident awaiting review. -/
def c8ReviewInc : Incident :=
  { id := 0
    createdAt := 0
    updatedAt := 1
    report := "Lost dog wandering around"
    location := "Park"
    suggestedPriority := .P3
    confidence := 1/2
    finalPriority := none
    status := .needs_human_review
    reviewReason := none
    reviewedBy := none }

def c8ReviewState : ServerState :=
  { incidents := [c8ReviewInc], approvalEvents := [], nextId := 2 }

/-- A registry holding one rejected incident with review fields set. -/
def c8RejInc : Incident :=
  { id := 0
    createdAt := 0
    updatedAt := 2
    report := "Lost dog wandering around"
    location := "Park"
    suggestedPriority := .P3
    confidence := 1/2
    finalPriority := none
    status := .rejected
    reviewReason := some "not actionable"
    reviewedBy := some "alice" }

def c8RejState : ServerState :=
  { incidents := [c8RejInc], approvalEvents := [], nextId := 3 }

/-! ## Evaluation and inversion lemmas -/

/-- Closed form of the scorer: the six reachable (priority, confidence)
pairs, selected by keyword match and hint. -/
theorem triage_eval (r : String) (h : Option UrgencyHint) :
    triage r h =
      if keywordMatch r then
        match h with
        | some .high => ⟨.P1, 19/20⟩
        | some .low => ⟨.P3, 11/20⟩
        | _ => ⟨.P2, 3/4⟩
      else
        match h with
        | some .high => ⟨.P2, 7/10⟩
        | some .low => ⟨.P3, 3/10⟩
        | _ => ⟨.P3, 1/2⟩ := by
  cases hkw : keywordMatch r <;> rcases h with _ | (_ | _ | _) <;>
    norm_num [triage, preClampScore, hkw, clamp01, roundTo2, Int.floor_eq_iff]

theorem canTransition_draft_nhr :
    canTransition .draft .needs_human_review = true := rfl

/-- The only edge into approved starts at needs_human_review. -/
theorem canTransition_to_approved (f : IncidentStatus)
    (h : canTransition f .approved = true) : f = .needs_human_review := by
  cases f <;> simp_all [canTransition, transitions, List.contains]

/-- The only edge into executed starts at approved. -/
theorem canTransition_to_executed (f : IncidentStatus)
    (h : canTransition f .executed = true) : f = .approved := by
  cases f <;> simp_all [canTransition, transitions, List.contains]

/-- No edge enters draft. -/
theorem canTransition_to_draft (f : IncidentStatus) :
    canTransition f .draft = false := by
  cases f <;> rfl

/-- A successful transition means the edge was legal, the incident got
exactly the new status and timestamp, and the event records the edge. -/
theorem transitionIncident_ok {incident : Incident} {to_ : IncidentStatus}
    {actor : String} {reason : Option String} {eventId now : Nat}
    {inc2 : Incident} {ev : ApprovalEvent}
    (h : transitionIncident incident to_ actor reason eventId now = .ok (inc2, ev)) :
    canTransition incident.status to_ = true ∧
    inc2 = { incident with status := to_, updatedAt := now } ∧
    ev = { id := eventId
           incidentId := incident.id
           from_ := incident.status
           to_ := to_
           actor := actor
           reason := reason
           createdAt := now } := by
  by_cases hc : canTransition incident.status to_ = true
  · refine ⟨hc, ?_⟩
    rw [transitionIncident, if_pos hc] at h
    have := Except.ok.inj h
    exact ⟨(Prod.mk.injEq _ _ _ _).mp this |>.1.symm,
           (Prod.mk.injEq _ _ _ _).mp this |>.2.symm⟩
  · rw [transitionIncident, if_neg hc] at h
    exact absurd h (by simp)

/-- A failed transition means the edge was illegal and the error carries
the attempted (from, to) pair. -/
theorem transitionIncident_error {incident : Incident} {to_ : IncidentStatus}
    {actor : String} {reason : Option String} {eventId now : Nat}
    {e : TransitionError}
    (h : transitionIncident incident to_ actor reason eventId now = .error e) :
    canTransition incident.status to_ = false ∧
    e = { from_ := incident.status, to_ := to_ } := by
  by_cases hc : canTransition incident.status to_ = true
  · rw [transitionIncident, if_pos hc] at h
    exact absurd h (by simp)
  · rw [transitionIncident, if_neg hc] at h
    exact ⟨Bool.not_eq_true _ ▸ hc, (Except.error.inj h).symm⟩

/-- The failure side, from the legality bit. -/
theorem transitionIncident_error_of_not {incident : Incident}
    {to_ : IncidentStatus} (actor : String) (reason : Option String)
    (eventId now : Nat) (hc : canTransition incident.status to_ = false) :
    transitionIncident incident to_ actor reason eventId now =
      .error { from_ := incident.status, to_ := to_ } := by
  rw [transitionIncident, if_neg (by simp [hc])]

theorem findIncident_mem {s : ServerState} {id : Nat} {inc : Incident}
    (h : findIncident s id = some inc) : inc ∈ s.incidents :=
  List.mem_of_find?_eq_some h

theorem findIncident_id {s : ServerState} {id : Nat} {inc : Incident}
    (h : findIncident s id = some inc) : inc.id = id := by
  have := List.find?_some h
  simpa using this

/-- Looking up the id just written finds the written incident. -/
theorem find?_updateIncident {l : List Incident} {id : Nat} {inc : Incident}
    (inc1 : Incident) (h : l.find? (fun i => i.id == id) = some inc)
    (hid : inc1.id = id) :
    (updateIncident l id inc1).find? (fun i => i.id == id) = some inc1 := by
  induction l with
  | nil => simp at h
  | cons a t ih =>
      by_cases ha : a.id = id
      · simp only [updateIncident, List.map_cons, if_pos ha]
        exact List.find?_cons_of_pos _ (by simp [hid])
      · rw [List.find?_cons_of_neg _ (by simp [ha])] at h
        simp only [updateIncident, List.map_cons, if_neg ha]
        rw [List.find?_cons_of_neg _ (by simp [ha])]
        exact ih h

/-! ## The approval audit invariant -/

/-- An event recording a needs_human_review → approved decision for the
given incident id. -/
def IsApprovalEv (e : ApprovalEvent) (id : Nat) : Prop :=
  e.incidentId = id ∧ e.from_ = .needs_human_review ∧ e.to_ = .approved

/-- An event recording an approved → executed dispatch for the given
incident id. -/
def IsExecutionEv (e : ApprovalEvent) (id : Nat) : Prop :=
  e.incidentId = id ∧ e.from_ = .approved ∧ e.to_ = .executed

/-- The log holds a human-approval event for the incident. -/
def HasApproval (evs : List ApprovalEvent) (id : Nat) : Prop :=
  ∃ e ∈ evs, IsApprovalEv e id

/-- The log holds an approval event and, later, an execution event for the
incident (the two-element sublist fixes the order). -/
def HasApprovalThenExecution (evs : List ApprovalEvent) (id : Nat) : Prop :=
  ∃ e1 e2 : ApprovalEvent,
    [e1, e2].Sublist evs ∧ IsApprovalEv e1 id ∧ IsExecutionEv e2 id

theorem hasApproval_append {evs : List ApprovalEvent} {id : Nat}
    (h : HasApproval evs id) (l : List ApprovalEvent) :
    HasApproval (evs ++ l) id := by
  obtain ⟨e, hmem, he⟩ := h
  exact ⟨e, List.mem_append_left l hmem, he⟩

theorem hasApprovalThenExecution_append {evs : List ApprovalEvent} {id : Nat}
    (h : HasApprovalThenExecution evs id) (l : List ApprovalEvent) :
    HasApprovalThenExecution (evs ++ l) id := by
  obtain ⟨e1, e2, hsub, h1, h2⟩ := h
  exact ⟨e1, e2, hsub.trans (List.sublist_append_left evs l), h1, h2⟩

theorem hasApprovalThenExecution_append_exec {evs : List ApprovalEvent}
    {id : Nat} (h : HasApproval evs id) {e2 : ApprovalEvent}
    (h2 : IsExecutionEv e2 id) :
    HasApprovalThenExecution (evs ++ [e2]) id := by
  obtain ⟨e1, hmem, h1⟩ := h
  exact ⟨e1, e2,
    (List.singleton_sublist.mpr hmem).append (List.Sublist.refl [e2]), h1, h2⟩

/-- The audit invariant: an approved or executed incident has a recorded
human approval, and an executed one has the approval followed by the
execution record. -/
def EventsOk (s : ServerState) : Prop :=
  ∀ inc ∈ s.incidents,
    ((inc.status = .approved ∨ inc.status = .executed) →
       HasApproval s.approvalEvents inc.id) ∧
    (inc.status = .executed →
       HasApprovalThenExecution s.approvalEvents inc.id)

/-- No incident in the registry is in draft (creation leaves the handler
only after the auto-routing transition). -/
def NoDraft (s : ServerState) : Prop :=
  ∀ inc ∈ s.incidents, inc.status ≠ .draft

/-- Core step lemma: a legal transition of a registered incident, with its
event appended, preserves the audit invariant. -/
theorem eventsOk_update {s : ServerState} (h : EventsOk s)
    {inc0 inc2 : Incident} {ev : ApprovalEvent} {to_ : IncidentStatus}
    (n : Nat)
    (hmem : inc0 ∈ s.incidents)
    (hcan : canTransition inc0.status to_ = true)
    (hid : inc2.id = inc0.id)
    (hst : inc2.status = to_)
    (hev1 : ev.incidentId = inc0.id)
    (hev2 : ev.from_ = inc0.status)
    (hev3 : ev.to_ = to_) :
    EventsOk { incidents := updateIncident s.incidents inc0.id inc2
               approvalEvents := s.approvalEvents ++ [ev]
               nextId := n } := by
  intro inc hmem'
  simp only [updateIncident] at hmem'
  obtain ⟨x, hx, hfx⟩ := List.mem_map.mp hmem'
  by_cases hxid : x.id = inc0.id
  · rw [if_pos hxid] at hfx
    subst hfx
    constructor
    · rintro (hap | hex)
      · -- inc2 is approved: the transition target was approved, so the
        -- source status was needs_human_review and ev is the approval.
        rw [hst] at hap
        subst hap
        have hsrc := canTransition_to_approved _ hcan
        exact ⟨ev, List.mem_append_right _ (List.mem_cons_self _ _),
          hev1 ▸ hid ▸ rfl, by rw [hev2, hsrc], hev3⟩
      · rw [hst] at hex
        subst hex
        have hsrc := canTransition_to_executed _ hcan
        have happ : HasApproval s.approvalEvents inc0.id :=
          (h inc0 hmem).1 (Or.inl hsrc)
        rw [hid]
        exact hasApproval_append happ [ev]
    · intro hex
      rw [hst] at hex
      subst hex
      have hsrc := canTransition_to_executed _ hcan
      have happ : HasApproval s.approvalEvents inc0.id :=
        (h inc0 hmem).1 (Or.inl hsrc)
      rw [hid]
      exact hasApprovalThenExecution_append_exec happ
        ⟨hev1, by rw [hev2, hsrc], hev3⟩
  · rw [if_neg hxid] at hfx
    subst hfx
    exact ⟨fun hyp => hasApproval_append ((h x hx).1 hyp) [ev],
           fun hyp => hasApprovalThenExecution_append ((h x hx).2 hyp) [ev]⟩

/-- Mutating only non-status fields of a registered incident (no event
appended) preserves the audit invariant. -/
theorem eventsOk_fieldsOnly {s : ServerState} (h : EventsOk s)
    {inc0 inc1 : Incident}
    (hmem : inc0 ∈ s.incidents)
    (hst : inc1.status = inc0.status)
    (hid : inc1.id = inc0.id) :
    EventsOk { s with incidents := updateIncident s.incidents inc0.id inc1 } := by
  intro inc hmem'
  simp only [updateIncident] at hmem'
  obtain ⟨x, hx, hfx⟩ := List.mem_map.mp hmem'
  by_cases hxid : x.id = inc0.id
  · rw [if_pos hxid] at hfx
    subst hfx
    exact ⟨fun hyp => hid ▸ (h inc0 hmem).1 (hst ▸ hyp),
           fun hyp => hid ▸ (h inc0 hmem).2 (hst ▸ hyp)⟩
  · rw [if_neg hxid] at hfx
    subst hfx
    exact h x hx

/-- Appending a fresh non-approved, non-executed incident together with
its event preserves the audit invariant. -/
theorem eventsOk_append {s : ServerState} (h : EventsOk s)
    {inc : Incident} {ev : ApprovalEvent} (n : Nat)
    (hst1 : inc.status ≠ .approved) (hst2 : inc.status ≠ .executed) :
    EventsOk { incidents := s.incidents ++ [inc]
               approvalEvents := s.approvalEvents ++ [ev]
               nextId := n } := by
  intro x hx
  rcases List.mem_append.mp hx with hx | hx
  · exact ⟨fun hyp => hasApproval_append ((h x hx).1 hyp) [ev],
           fun hyp => hasApprovalThenExecution_append ((h x hx).2 hyp) [ev]⟩
  · rcases List.mem_singleton.mp hx with rfl
    exact ⟨fun hyp => absurd hyp (by simp [hst1, hst2]),
           fun hyp => absurd hyp hst2⟩

/-- POST /incidents in closed form: the auto-routing transition from
draft always succeeds, so the returned incident is in needs_human_review
and the draft → needs_human_review event is logged. -/
theorem createIncident_eq (s : ServerState) (report location : String)
    (hint : Option UrgencyHint) (actor : String) (now tnow : Nat) :
    createIncident s report location hint actor now tnow =
      ({ incidents := s.incidents ++
           [{ id := s.nextId
              createdAt := now
              updatedAt := tnow
              report := report
              location := location
              suggestedPriority := (triage report hint).suggestedPriority
              confidence := (triage report hint).confidence
              finalPriority := none
              status := .needs_human_review
              reviewReason := none
              reviewedBy := none }]
         approvalEvents := s.approvalEvents ++
           [{ id := s.nextId + 1
              incidentId := s.nextId
              from_ := .draft
              to_ := .needs_human_review
              actor := actor
              reason := some "Auto-routed for HITL review"
              createdAt := tnow }]
         nextId := s.nextId + 2 },
       { id := s.nextId
         createdAt := now
         updatedAt := tnow
         report := report
         location := location
         suggestedPriority := (triage report hint).suggestedPriority
         confidence := (triage report hint).confidence
         finalPriority := none
         status := .needs_human_review
         reviewReason := none
         reviewedBy := none }) := rfl

theorem noDraft_update {s : ServerState} (h : NoDraft s) {inc2 : Incident}
    (hst : inc2.status ≠ .draft) (id : Nat) (evs : List ApprovalEvent)
    (n : Nat) :
    NoDraft { incidents := updateIncident s.incidents id inc2
              approvalEvents := evs
              nextId := n } := by
  intro inc hmem
  simp only [updateIncident] at hmem
  obtain ⟨x, hx, hfx⟩ := List.mem_map.mp hmem
  by_cases hxid : x.id = id
  · rw [if_pos hxid] at hfx; subst hfx; exact hst
  · rw [if_neg hxid] at hfx; subst hfx; exact h x hx

theorem noDraft_append {s : ServerState} (h : NoDraft s) {inc : Incident}
    (hst : inc.status ≠ .draft) (evs : List ApprovalEvent) (n : Nat) :
    NoDraft { incidents := s.incidents ++ [inc]
              approvalEvents := evs
              nextId := n } := by
  intro x hx
  rcases List.mem_append.mp hx with hx | hx
  · exact h x hx
  · rcases List.mem_singleton.mp hx with rfl; exact hst


/-! ## Handler equation lemmas -/

theorem reviewIncident_some {s : ServerState} {id : Nat} {inc0 : Incident}
    (decision : ApprovalDecision) (actor reason : String)
    (fp : Option Priority) (now : Nat)
    (hfind : findIncident s id = some inc0) :
    reviewIncident s id decision actor reason fp now =
      match transitionIncident (reviewMutated inc0 decision actor reason fp)
          (reviewTarget decision) actor (some reason) s.nextId now with
      | .ok (inc2, ev) =>
          ({ incidents := updateIncident s.incidents id inc2
             approvalEvents := s.approvalEvents ++ [ev]
             nextId := s.nextId + 1 }, .ok inc2 ev)
      | .error e =>
          ({ s with
               incidents :=
                 updateIncident s.incidents id
                   (reviewMutated inc0 decision actor reason fp) },
           .invalidTransition e) := by
  rw [reviewIncident, hfind]

theorem reopenIncident_some {s : ServerState} {id : Nat} {inc0 : Incident}
    (actor reason : String) (now : Nat)
    (hfind : findIncident s id = some inc0) :
    reopenIncident s id actor reason now =
      match transitionIncident inc0 .needs_human_review actor
          (some reason) s.nextId now with
      | .ok (inc2, ev) =>
          ({ incidents := updateIncident s.incidents id inc2
             approvalEvents := s.approvalEvents ++ [ev]
             nextId := s.nextId + 1 }, .ok inc2 ev)
      | .error e => (s, .invalidTransition e) := by
  rw [reopenIncident, hfind]

theorem executeIncident_some {s : ServerState} {id : Nat} {inc0 : Incident}
    (actor : String) (now : Nat)
    (hfind : findIncident s id = some inc0) :
    executeIncident s id actor now =
      match transitionIncident inc0 .executed actor
          (some "Dispatch executed") s.nextId now with
      | .ok (inc2, ev) =>
          ({ incidents := updateIncident s.incidents id inc2
             approvalEvents := s.approvalEvents ++ [ev]
             nextId := s.nextId + 1 }, .ok inc2 ev)
      | .error e => (s, .invalidTransition e) := by
  rw [executeIncident, hfind]

/-! ## Preservation of the invariants by each handler -/

theorem eventsOk_review (s : ServerState) (id : Nat)
    (decision : ApprovalDecision) (actor reason : String)
    (fp : Option Priority) (now : Nat) (h : EventsOk s) :
    EventsOk (reviewIncident s id decision actor reason fp now).1 := by
  cases hfind : findIncident s id with
  | none => rw [reviewIncident, hfind]; exact h
  | some inc0 =>
      rw [reviewIncident_some decision actor reason fp now hfind]
      have hmem := findIncident_mem hfind
      have hid0 := findIncident_id hfind
      cases htr : transitionIncident
          (reviewMutated inc0 decision actor reason fp)
          (reviewTarget decision) actor (some reason) s.nextId now with
      | error e =>
          rw [← hid0]
          exact eventsOk_fieldsOnly h hmem rfl rfl
      | ok p =>
          obtain ⟨inc2, ev⟩ := p
          obtain ⟨hcan, hinc2, hev⟩ := transitionIncident_ok htr
          have hcan' : canTransition inc0.status (reviewTarget decision) = true := hcan
          have hid2 : inc2.id = inc0.id := by rw [hinc2]; rfl
          have hst2 : inc2.status = reviewTarget decision := by rw [hinc2]
          have hev1 : ev.incidentId = inc0.id := by rw [hev]; rfl
          have hev2 : ev.from_ = inc0.status := by rw [hev]; rfl
          have hev3 : ev.to_ = reviewTarget decision := by rw [hev]
          rw [← hid0]
          exact eventsOk_update h (s.nextId + 1) hmem hcan' hid2 hst2 hev1 hev2 hev3

theorem eventsOk_reopen (s : ServerState) (id : Nat) (actor reason : String)
    (now : Nat) (h : EventsOk s) :
    EventsOk (reopenIncident s id actor reason now).1 := by
  cases hfind : findIncident s id with
  | none => rw [reopenIncident, hfind]; exact h
  | some inc0 =>
      rw [reopenIncident_some actor reason now hfind]
      have hmem := findIncident_mem hfind
      have hid0 := findIncident_id hfind
      cases htr : transitionIncident inc0 .needs_human_review actor
          (some reason) s.nextId now with
      | error e => exact h
      | ok p =>
          obtain ⟨inc2, ev⟩ := p
          obtain ⟨hcan, hinc2, hev⟩ := transitionIncident_ok htr
          have hid2 : inc2.id = inc0.id := by rw [hinc2]
          have hst2 : inc2.status = IncidentStatus.needs_human_review := by rw [hinc2]
          have hev1 : ev.incidentId = inc0.id := by rw [hev]
          have hev2 : ev.from_ = inc0.status := by rw [hev]
          have hev3 : ev.to_ = IncidentStatus.needs_human_review := by rw [hev]
          rw [← hid0]
          exact eventsOk_update h (s.nextId + 1) hmem hcan hid2 hst2 hev1 hev2 hev3

theorem eventsOk_execute (s : ServerState) (id : Nat) (actor : String)
    (now : Nat) (h : EventsOk s) :
    EventsOk (executeIncident s id actor now).1 := by
  cases hfind : findIncident s id with
  | none => rw [executeIncident, hfind]; exact h
  | some inc0 =>
      rw [executeIncident_some actor now hfind]
      have hmem := findIncident_mem hfind
      have hid0 := findIncident_id hfind
      cases htr : transitionIncident inc0 .executed actor
          (some "Dispatch executed") s.nextId now with
      | error e => exact h
      | ok p =>
          obtain ⟨inc2, ev⟩ := p
          obtain ⟨hcan, hinc2, hev⟩ := transitionIncident_ok htr
          have hid2 : inc2.id = inc0.id := by rw [hinc2]
          have hst2 : inc2.status = IncidentStatus.executed := by rw [hinc2]
          have hev1 : ev.incidentId = inc0.id := by rw [hev]
          have hev2 : ev.from_ = inc0.status := by rw [hev]
          have hev3 : ev.to_ = IncidentStatus.executed := by rw [hev]
          rw [← hid0]
          exact eventsOk_update h (s.nextId + 1) hmem hcan hid2 hst2 hev1 hev2 hev3

/-- Every request handler preserves the audit invariant. -/
theorem eventsOk_applyOp (s : ServerState) (op : Op) (h : EventsOk s) :
    EventsOk (applyOp s op) := by
  cases op with
  | create report location hint actor now tnow =>
      rw [applyOp, createIncident_eq]
      exact eventsOk_append h _ (by simp) (by simp)
  | review id decision actor reason fp now =>
      exact eventsOk_review s id decision actor reason fp now h
  | reopen id actor reason now => exact eventsOk_reopen s id actor reason now h
  | execute id actor now => exact eventsOk_execute s id actor now h

/-- A legal transition never targets draft. -/
theorem target_ne_draft {f t : IncidentStatus}
    (h : canTransition f t = true) : t ≠ .draft := by
  intro hd
  subst hd
  rw [canTransition_to_draft] at h
  exact Bool.false_ne_true h

/-- Every request handler preserves the absence of draft incidents. -/
theorem noDraft_applyOp (s : ServerState) (op : Op) (h : NoDraft s) :
    NoDraft (applyOp s op) := by
  cases op with
  | create report location hint actor now tnow =>
      rw [applyOp, createIncident_eq]
      exact noDraft_append h (by simp) _ _
  | review id decision actor reason fp now =>
      rw [applyOp]
      cases hfind : findIncident s id with
      | none => rw [reviewIncident, hfind]; exact h
      | some inc0 =>
          rw [reviewIncident_some decision actor reason fp now hfind]
          have hmem := findIncident_mem hfind
          cases htr : transitionIncident
              (reviewMutated inc0 decision actor reason fp)
              (reviewTarget decision) actor (some reason) s.nextId now with
          | error e =>
              refine noDraft_update h ?_ id s.approvalEvents s.nextId
              show (reviewMutated inc0 decision actor reason fp).status ≠ .draft
              exact h inc0 hmem
          | ok p =>
              obtain ⟨inc2, ev⟩ := p
              obtain ⟨hcan, hinc2, hev⟩ := transitionIncident_ok htr
              refine noDraft_update h ?_ id _ _
              rw [hinc2]
              exact target_ne_draft hcan
  | reopen id actor reason now =>
      rw [applyOp]
      cases hfind : findIncident s id with
      | none => rw [reopenIncident, hfind]; exact h
      | some inc0 =>
          rw [reopenIncident_some actor reason now hfind]
          cases htr : transitionIncident inc0 .needs_human_review actor
              (some reason) s.nextId now with
          | error e => exact h
          | ok p =>
              obtain ⟨inc2, ev⟩ := p
              obtain ⟨hcan, hinc2, hev⟩ := transitionIncident_ok htr
              refine noDraft_update h ?_ id _ _
              rw [hinc2]
              exact target_ne_draft hcan
  | execute id actor now =>
      rw [applyOp]
      cases hfind : findIncident s id with
      | none => rw [executeIncident, hfind]; exact h
      | some inc0 =>
          rw [executeIncident_some actor now hfind]
          cases htr : transitionIncident inc0 .executed actor
              (some "Dispatch executed") s.nextId now with
          | error e => exact h
          | ok p =>
              obtain ⟨inc2, ev⟩ := p
              obtain ⟨hcan, hinc2, hev⟩ := transitionIncident_ok htr
              refine noDraft_update h ?_ id _ _
              rw [hinc2]
              exact target_ne_draft hcan

/-- The audit invariant holds in every reachable state. -/
theorem reachable_eventsOk {s : ServerState} (h : Reachable s) : EventsOk s := by
  induction h with
  | init => intro inc hmem; simp [initState] at hmem
  | step op _ ih => exact eventsOk_applyOp _ op ih

/-- No reachable state holds a draft incident. -/
theorem reachable_noDraft {s : ServerState} (h : Reachable s) : NoDraft s := by
  induction h with
  | init => intro inc hmem; simp [initState] at hmem
  | step op _ ih => exact noDraft_applyOp _ op ih

/-! ## Keyword facts and concrete-state lemmas -/

theorem kwFire : keywordMatch "Fire spreading near the shelter" = true := by
  decide

theorem kwLostDog : keywordMatch "Lost dog wandering around" = false := by
  decide

theorem kwRubble : keywordMatch c7Report = true := by decide

theorem c1Reachable : Reachable c1State := by
  have h1 := Reachable.step
    (Op.create "Fire spreading near the shelter" "Shelter" (some .high) "system" 0 1)
    Reachable.init
  have h2 := Reachable.step
    (Op.review 0 .approve "alice" "confirmed on site" (some .P1) 2) h1
  have h3 := Reachable.step (Op.execute 0 "bob" 3) h2
  exact h3

theorem c1Inc_mem : c1Inc ∈ c1State.incidents := by
  simp only [c1State, c1Ops, List.foldl, applyOp, createIncident, reviewIncident,
    executeIncident, triage_eval, kwFire, initState, findIncident, updateIncident,
    transitionIncident, canTransition, transitions, reviewTarget, reviewMutated]
  norm_num
  rfl

theorem c5Reachable : Reachable c5State := by
  have h1 := Reachable.step
    (Op.create "Lost dog wandering around" "Park" none "system" 0 1)
    Reachable.init
  have h2 := Reachable.step
    (Op.review 0 .reject "alice" "not actionable" none 2) h1
  exact h2

theorem c5_find : findIncident c5State 0 = some c5Inc := by
  simp only [c5State, c5Ops, List.foldl, applyOp, createIncident, reviewIncident,
    triage_eval, kwLostDog, initState, findIncident, updateIncident,
    transitionIncident, canTransition, transitions, reviewTarget, reviewMutated]
  rfl

/-! ## Claims -/

/-- C1: for every reachable incident, status executed implies the event
log holds an ApprovalEvent needs_human_review → approved for that incident
followed later by an ApprovalEvent approved → executed for it; no sequence
of operations reaches executed without those events. -/
theorem c1_executed_requires_logged_approval {s : ServerState}
    (hs : Reachable s) {inc : Incident} (hmem : inc ∈ s.incidents)
    (hex : inc.status = .executed) :
    ∃ e1 e2 : ApprovalEvent,
      [e1, e2].Sublist s.approvalEvents ∧
      e1.incidentId = inc.id ∧ e1.from_ = .needs_human_review ∧
      e1.to_ = .approved ∧
      e2.incidentId = inc.id ∧ e2.from_ = .approved ∧ e2.to_ = .executed := by
  obtain ⟨e1, e2, hsub, ⟨h1, h2, h3⟩, ⟨h4, h5, h6⟩⟩ :=
    (reachable_eventsOk hs inc hmem).2 hex
  exact ⟨e1, e2, hsub, h1, h2, h3, h4, h5, h6⟩

/-- Witness for C1: the executed incident of the create/approve/execute
run has both audit events, in order. -/
theorem c1_executed_witness :
    ∃ e1 e2 : ApprovalEvent,
      [e1, e2].Sublist c1State.approvalEvents ∧
      e1.incidentId = 0 ∧ e1.from_ = .needs_human_review ∧
      e1.to_ = .approved ∧
      e2.incidentId = 0 ∧ e2.from_ = .approved ∧ e2.to_ = .executed :=
  c1_executed_requires_logged_approval c1Reachable c1Inc_mem rfl

/-- C2 (code defect): after create, reject, and a failed approve on the
rejected incident, finalPriority is set (to the suggested P3) while the
status is rejected and was never approved — the event log shows only
draft → needs_human_review and needs_human_review → rejected.  This
contradicts the invariant that finalPriority is present only when the
status has ever reached approved. -/
theorem c2_finalPriority_set_on_rejected :
    (findIncident c2State 0).map
        (fun i => (i.status, i.finalPriority, i.suggestedPriority)) =
      some (.rejected, some .P3, .P3) ∧
    c2State.approvalEvents.map (fun e => (e.from_, e.to_)) =
      [(.draft, .needs_human_review), (.needs_human_review, .rejected)] := by
  simp only [c2State, c2Ops, List.foldl, applyOp, createIncident, reviewIncident,
    triage_eval, kwLostDog, initState, findIncident, updateIncident,
    transitionIncident, canTransition, transitions, reviewTarget, reviewMutated]
  decide

/-- C3: an attempted transition whose edge is not in the table fails with
the InvalidTransition error carrying the attempted (from, to) pair, no
event is appended, and status and updatedAt are unchanged; for a failed
review the already-applied mutations to reviewReason, reviewedBy and (on
approve) finalPriority persist — the registry entry equals the old
incident with exactly those fields overwritten. -/
theorem c3_invalid_transition_contract :
    (∀ (incident : Incident) (to_ : IncidentStatus) (actor : String)
        (reason : Option String) (eventId now : Nat),
      canTransition incident.status to_ = false →
      transitionIncident incident to_ actor reason eventId now =
        .error { from_ := incident.status, to_ := to_ }) ∧
    (∀ (s : ServerState) (id : Nat) (decision : ApprovalDecision)
        (actor reason : String) (fp : Option Priority) (now : Nat)
        (inc : Incident),
      findIncident s id = some inc →
      canTransition inc.status (reviewTarget decision) = false →
      (reviewIncident s id decision actor reason fp now).2 =
          .invalidTransition { from_ := inc.status, to_ := reviewTarget decision } ∧
      (reviewIncident s id decision actor reason fp now).1.approvalEvents =
          s.approvalEvents ∧
      findIncident (reviewIncident s id decision actor reason fp now).1 id =
        some { inc with
                 finalPriority :=
                   if decision = .approve then some (fp.getD inc.suggestedPriority)
                   else inc.finalPriority
                 reviewReason := some reason
                 reviewedBy := some actor }) ∧
    (∀ (s : ServerState) (id : Nat) (actor reason : String) (now : Nat)
        (inc : Incident),
      findIncident s id = some inc →
      canTransition inc.status .needs_human_review = false →
      (reopenIncident s id actor reason now).1 = s ∧
      (reopenIncident s id actor reason now).2 =
        .invalidTransition { from_ := inc.status, to_ := .needs_human_review }) ∧
    (∀ (s : ServerState) (id : Nat) (actor : String) (now : Nat)
        (inc : Incident),
      findIncident s id = some inc →
      canTransition inc.status .executed = false →
      (executeIncident s id actor now).1 = s ∧
      (executeIncident s id actor now).2 =
        .invalidTransition { from_ := inc.status, to_ := .executed }) := by
  refine ⟨?_, ?_, ?_, ?_⟩
  · intro incident to_ actor reason eventId now hc
    exact transitionIncident_error_of_not actor reason eventId now hc
  · intro s id decision actor reason fp now inc hfind hc
    rw [reviewIncident_some decision actor reason fp now hfind]
    have htr := transitionIncident_error_of_not actor (some reason) s.nextId now
      (show canTransition (reviewMutated inc decision actor reason fp).status
          (reviewTarget decision) = false from hc)
    rw [htr]
    refine ⟨rfl, rfl, ?_⟩
    have hid' : inc.id = id := findIncident_id hfind
    exact find?_updateIncident (reviewMutated inc decision actor reason fp)
      hfind hid'
  · intro s id actor reason now inc hfind hc
    rw [reopenIncident_some actor reason now hfind]
    rw [transitionIncident_error_of_not actor (some reason) s.nextId now hc]
    exact ⟨rfl, rfl⟩
  · intro s id actor now inc hfind hc
    rw [executeIncident_some actor now hfind]
    rw [transitionIncident_error_of_not actor (some "Dispatch executed")
      s.nextId now hc]
    exact ⟨rfl, rfl⟩

/-- Witness for C3: a second approve on an already-approved incident
fails with the (approved, approved) pair, appends nothing, keeps the
status, and still overwrites finalPriority (suggested P3 replaces the
earlier P1), reviewReason and reviewedBy. -/
theorem c3_invalid_transition_witness :
    transitionIncident c3Inc .approved "carol" (some "again") 9 9 =
      .error { from_ := .approved, to_ := .approved } ∧
    (reviewIncident c3State 0 .approve "carol" "again" none 9).2 =
      .invalidTransition { from_ := .approved, to_ := .approved } ∧
    (reviewIncident c3State 0 .approve "carol" "again" none 9).1.approvalEvents =
      c3State.approvalEvents ∧
    findIncident (reviewIncident c3State 0 .approve "carol" "again" none 9).1 0 =
      some { c3Inc with
               finalPriority := some .P3
               reviewReason := some "again"
               reviewedBy := some "carol" } := by
  have hfind : findIncident c3State 0 = some c3Inc := rfl
  have hcan : canTransition c3Inc.status (reviewTarget .approve) = false := by
    decide
  obtain ⟨h1, h2, h3⟩ :=
    c3_invalid_transition_contract.2.1 c3State 0 .approve "carol" "again" none 9
      c3Inc hfind hcan
  exact ⟨c3_invalid_transition_contract.1 c3Inc .approved "carol" (some "again")
    9 9 hcan, h1, h2, h3⟩

/-- C4: the scorer computes exactly what the specification describes —
base 0.5, +0.25 on a keyword match (case-insensitive substring), +0.2 on
hint high, -0.2 on hint low, nothing otherwise, clamped to [0, 1];
priority P1 above 0.75, P2 above 0.55, else P3; confidence is the clamped
score rounded to two decimals. -/
theorem c4_triage_matches_spec (report : String)
    (urgencyHint : Option UrgencyHint) :
    triage report urgencyHint = triageSpec report urgencyHint := by
  rw [triage_eval]
  cases hkw : keywordMatch report <;>
    rcases urgencyHint with _ | (_ | _ | _) <;>
      norm_num [triageSpec, specClampedScore, specRawScore, specHintAdjust,
        hkw, Int.floor_eq_iff]

/-- The edges into needs_human_review start at draft (auto-routing) or
rejected (reopen). -/
theorem canTransition_to_nhr (f : IncidentStatus)
    (h : canTransition f .needs_human_review = true) :
    f = .draft ∨ f = .rejected := by
  cases f <;> simp_all [canTransition, transitions, List.contains]

/-- Counterexample to C5: reopen on an incident whose status is draft
does NOT fail — draft → needs_human_review is in the transition table, so
the handler succeeds, contradicting the scenario that reopen from draft
fails with InvalidTransition. -/
theorem c5_reopen_draft_succeeds :
    ∃ inc2 ev,
      (reopenIncident c5DraftState 7 "bob" "please reopen" 5).2 = .ok inc2 ev ∧
      inc2.status = .needs_human_review :=
  ⟨_, _, rfl, rfl⟩

/-- C5 (amended): over reachable states no incident is in draft, so
reopen succeeds exactly when the incident is rejected, and from any other
status fails with InvalidTransition carrying (status, needs_human_review).
(On a hypothetical draft record the table would let reopen succeed; see
the counterexample.) -/
theorem c5_reopen_only_from_rejected {s : ServerState} (hs : Reachable s)
    {id : Nat} {inc : Incident} (hfind : findIncident s id = some inc)
    (actor reason : String) (now : Nat) :
    ((∃ inc2 ev, (reopenIncident s id actor reason now).2 = .ok inc2 ev) ↔
        inc.status = .rejected) ∧
    (inc.status ≠ .rejected →
      (reopenIncident s id actor reason now).2 =
        .invalidTransition { from_ := inc.status, to_ := .needs_human_review }) := by
  have hnd : inc.status ≠ .draft :=
    reachable_noDraft hs inc (findIncident_mem hfind)
  rw [reopenIncident_some actor reason now hfind]
  cases htr : transitionIncident inc .needs_human_review actor
      (some reason) s.nextId now with
  | ok p =>
      obtain ⟨inc2, ev⟩ := p
      obtain ⟨hcan, hinc2, hev⟩ := transitionIncident_ok htr
      have hrej : inc.status = .rejected :=
        (canTransition_to_nhr _ hcan).resolve_left hnd
      exact ⟨⟨fun _ => hrej, fun _ => ⟨inc2, ev, rfl⟩⟩,
             fun hne => absurd hrej hne⟩
  | error e =>
      obtain ⟨hcan, he⟩ := transitionIncident_error htr
      have hnrej : inc.status ≠ .rejected := by
        intro hrej
        rw [hrej] at hcan
        simp [canTransition, transitions, List.contains] at hcan
      subst he
      refine ⟨⟨fun hex => ?_, fun hrej => absurd hrej hnrej⟩, fun _ => rfl⟩
      obtain ⟨inc2, ev, heq⟩ := hex
      exact absurd heq (by simp)

/-- Witness for C5 (amended): reopening the rejected incident of the
create/reject run succeeds. -/
theorem c5_reopen_witness :
    ∃ inc2 ev,
      (reopenIncident c5State 0 "bob" "second look" 9).2 = .ok inc2 ev :=
  (c5_reopen_only_from_rejected c5Reachable c5_find "bob" "second look" 9).1.mpr
    rfl

/-- Counterexample to C6: the fixed system reason recorded by the
auto-routing transition is "Auto-routed for HITL review", not
"auto-routed for review" as the claim quotes it. -/
theorem c6_auto_route_reason_differs :
    (createIncident initState "Lost dog wandering around" "Park" none
        "system" 0 1).1.approvalEvents.map (fun e => e.reason) =
      [some "Auto-routed for HITL review"] ∧
    ("Auto-routed for HITL review" : String) ≠ "auto-routed for review" := by
  constructor
  · rw [createIncident_eq]
    rfl
  · decide

/-- C6 (amended): createIncident builds the incident with the scorer's
priority and confidence, registers it, and unconditionally performs the
draft → needs_human_review transition with the fixed system reason
"Auto-routed for HITL review"; the returned incident is in
needs_human_review, and no reachable state holds a draft incident. -/
theorem c6_create_auto_routes :
    (∀ (s : ServerState) (report location : String)
        (hint : Option UrgencyHint) (actor : String) (now tnow : Nat),
      (createIncident s report location hint actor now tnow).2.status =
        .needs_human_review ∧
      (createIncident s report location hint actor now tnow).2.suggestedPriority =
        (triage report hint).suggestedPriority ∧
      (createIncident s report location hint actor now tnow).2.confidence =
        (triage report hint).confidence ∧
      (createIncident s report location hint actor now tnow).1.incidents =
        s.incidents ++ [(createIncident s report location hint actor now tnow).2] ∧
      ∃ ev, (createIncident s report location hint actor now tnow).1.approvalEvents =
          s.approvalEvents ++ [ev] ∧
        ev.incidentId = (createIncident s report location hint actor now tnow).2.id ∧
        ev.from_ = .draft ∧ ev.to_ = .needs_human_review ∧ ev.actor = actor ∧
        ev.reason = some "Auto-routed for HITL review") ∧
    (∀ s : ServerState, Reachable s → ∀ inc ∈ s.incidents,
      inc.status ≠ .draft) := by
  constructor
  · intro s report location hint actor now tnow
    rw [createIncident_eq]
    exact ⟨rfl, rfl, rfl, rfl, _, rfl, rfl, rfl, rfl, rfl, rfl⟩
  · intro s hs inc hmem
    exact reachable_noDraft hs inc hmem

/-- Witness for C6 (amended): a concrete creation lands in
needs_human_review, and the reachable executed incident of c1State is not
in draft. -/
theorem c6_create_witness :
    (createIncident initState "Lost dog wandering around" "Park" none
        "system" 0 1).2.status = .needs_human_review ∧
    c1Inc.status ≠ .draft :=
  ⟨(c6_create_auto_routes.1 initState "Lost dog wandering around" "Park"
      none "system" 0 1).1,
   c6_create_auto_routes.2 c1State c1Reachable c1Inc c1Inc_mem⟩

/-- Counterexample to C7: for the scenario report with hint high the
clamped score is 0.95, not 1.0 — the clamp does not raise the score to
1.0 and the returned confidence is 0.95. -/
theorem c7_confidence_not_one :
    clamp01 (preClampScore c7Report (some .high)) = 19/20 ∧
    (triage c7Report (some .high)).confidence = 19/20 ∧
    ((19 : ℚ)/20) ≠ 1 := by
  refine ⟨?_, ?_, by norm_num⟩
  · norm_num [preClampScore, kwRubble, clamp01]
  · rw [triage_eval]
    simp [kwRubble]

/-- C7 (amended): the scenario report with hint high scores exactly 0.95
(so score ≥ 0.95 holds with equality and the clamp to [0, 1] leaves it
unchanged), the priority is P1, and the created incident lands in
needs_human_review. -/
theorem c7_scenario_eval :
    preClampScore c7Report (some .high) = 19/20 ∧
    clamp01 (19/20 : ℚ) = 19/20 ∧
    (triage c7Report (some .high)).suggestedPriority = .P1 ∧
    (triage c7Report (some .high)).confidence = 19/20 ∧
    (createIncident initState c7Report "Collapsed building" (some .high)
        "system" 0 1).2.status = .needs_human_review ∧
    (createIncident initState c7Report "Collapsed building" (some .high)
        "system" 0 1).2.suggestedPriority = .P1 := by
  refine ⟨?_, ?_, ?_, ?_, ?_, ?_⟩
  · norm_num [preClampScore, kwRubble]
  · norm_num [clamp01]
  · rw [triage_eval]; simp [kwRubble]
  · rw [triage_eval]; simp [kwRubble]
  · rw [createIncident_eq]
  · rw [createIncident_eq]
    show (triage c7Report (some .high)).suggestedPriority = .P1
    rw [triage_eval]; simp [kwRubble]

/-- Counterexample to C8: after create, reject by alice, and a successful
reopen by bob, reviewedBy/reviewReason still hold alice's values — the
reopen handler does not touch them. -/
theorem c8_reopen_leaves_review_fields :
    (findIncident c8State 0).map
        (fun i => (i.status, i.reviewedBy, i.reviewReason)) =
      some (.needs_human_review, some "alice", some "not actionable") ∧
    (some "alice" : Option String) ≠ some "bob" ∧
    (some "not actionable" : Option String) ≠ some "new evidence" := by
  refine ⟨?_, by decide, by decide⟩
  simp only [c8State, c8Ops, List.foldl, applyOp, createIncident, reviewIncident,
    reopenIncident, triage_eval, kwLostDog, initState, findIncident,
    updateIncident, transitionIncident, canTransition, transitions,
    reviewTarget, reviewMutated]
  decide

/-- C8 (amended): every successful review sets reviewReason and
reviewedBy to that decision's reason and actor (overwriting earlier
values); reopen leaves both fields exactly as they were, recording its
actor and reason only in the ApprovalEvent. -/
theorem c8_review_sets_fields_reopen_preserves :
    (∀ (s : ServerState) (id : Nat) (decision : ApprovalDecision)
        (actor reason : String) (fp : Option Priority) (now : Nat)
        (inc2 : Incident) (ev : ApprovalEvent),
      (reviewIncident s id decision actor reason fp now).2 = .ok inc2 ev →
      inc2.reviewReason = some reason ∧ inc2.reviewedBy = some actor) ∧
    (∀ (s : ServerState) (id : Nat) (actor reason : String) (now : Nat)
        (inc inc2 : Incident) (ev : ApprovalEvent),
      findIncident s id = some inc →
      (reopenIncident s id actor reason now).2 = .ok inc2 ev →
      inc2.reviewReason = inc.reviewReason ∧
      inc2.reviewedBy = inc.reviewedBy ∧
      ev.actor = actor ∧ ev.reason = some reason) := by
  constructor
  · intro s id decision actor reason fp now inc2 ev hok
    cases hfind : findIncident s id with
    | none =>
        rw [reviewIncident, hfind] at hok
        exact absurd hok (by simp)
    | some inc0 =>
        rw [reviewIncident_some decision actor reason fp now hfind] at hok
        cases htr : transitionIncident
            (reviewMutated inc0 decision actor reason fp)
            (reviewTarget decision) actor (some reason) s.nextId now with
        | error e =>
            rw [htr] at hok
            exact absurd hok (by simp)
        | ok p =>
            obtain ⟨inc2', ev'⟩ := p
            rw [htr] at hok
            obtain ⟨hcan, hinc2, hev⟩ := transitionIncident_ok htr
            obtain ⟨heq1, heq2⟩ := OpResult.ok.inj hok
            subst heq1
            rw [hinc2]
            exact ⟨rfl, rfl⟩
  · intro s id actor reason now inc inc2 ev hfind hok
    rw [reopenIncident_some actor reason now hfind] at hok
    cases htr : transitionIncident inc .needs_human_review actor
        (some reason) s.nextId now with
    | error e =>
        rw [htr] at hok
        exact absurd hok (by simp)
    | ok p =>
        obtain ⟨inc2', ev'⟩ := p
        rw [htr] at hok
        obtain ⟨hcan, hinc2, hev⟩ := transitionIncident_ok htr
        obtain ⟨heq1, heq2⟩ := OpResult.ok.inj hok
        subst heq1; subst heq2
        rw [hinc2, hev]
        exact ⟨rfl, rfl, rfl, rfl⟩

/-- Witness for C8 (amended): a concrete reject sets both fields; a
concrete reopen of a rejected incident preserves them and records its
actor/reason in the event. -/
theorem c8_fields_witness :
    (∃ inc2 ev,
      (reviewIncident c8ReviewState 0 .reject "alice" "not actionable" none 2).2 =
        .ok inc2 ev ∧
      inc2.reviewReason = some "not actionable" ∧
      inc2.reviewedBy = some "alice") ∧
    (∃ inc2 ev,
      (reopenIncident c8RejState 0 "bob" "new evidence" 3).2 = .ok inc2 ev ∧
      inc2.reviewReason = c8RejInc.reviewReason ∧
      inc2.reviewedBy = c8RejInc.reviewedBy ∧
      ev.actor = "bob" ∧ ev.reason = some "new evidence") := by
  constructor
  · refine ⟨_, _, rfl, ?_⟩
    exact c8_review_sets_fields_reopen_preserves.1 c8ReviewState 0 .reject
      "alice" "not actionable" none 2 _ _ rfl
  · refine ⟨_, _, rfl, ?_⟩
    exact c8_review_sets_fields_reopen_preserves.2 c8RejState 0 "bob"
      "new evidence" 3 c8RejInc _ _ rfl rfl

/-- C9: the pre-clamp score always lies in [0.3, 0.95], so the clamp is
the identity; confidence is never 0 or 1 and is always one of
0.3, 0.5, 0.55, 0.7, 0.75, 0.95; and P1 is returned exactly when the
report matches a keyword and the hint is high. -/
theorem c9_score_range_and_p1 (report : String)
    (urgencyHint : Option UrgencyHint) :
    3/10 ≤ preClampScore report urgencyHint ∧
    preClampScore report urgencyHint ≤ 19/20 ∧
    clamp01 (preClampScore report urgencyHint) =
      preClampScore report urgencyHint ∧
    (triage report urgencyHint).confidence ≠ 0 ∧
    (triage report urgencyHint).confidence ≠ 1 ∧
    (triage report urgencyHint).confidence ∈
      ([3/10, 1/2, 11/20, 7/10, 3/4, 19/20] : List ℚ) ∧
    ((triage report urgencyHint).suggestedPriority = .P1 ↔
      (keywordMatch report = true ∧ urgencyHint = some .high)) := by
  rw [triage_eval]
  cases hkw : keywordMatch report <;>
    rcases urgencyHint with _ | (_ | _ | _) <;>
      (norm_num [preClampScore, clamp01, hkw] <;> decide)

/-- C10: a status query string outside the five IncidentStatus values
makes the z.enum parse fail, and the handler returns the full unfiltered
list, exactly as with no filter. -/
theorem c10_invalid_status_filter_ignored (s : ServerState) (q : String)
    (h : parseStatus q = none) :
    listIncidents s (some q) = listIncidents s none := by
  simp [listIncidents, h]

/-- Witness for C10: the string "urgent" is not a status; listing with it
equals listing without a filter. -/
theorem c10_witness :
    parseStatus "urgent" = none ∧
    listIncidents initState (some "urgent") = listIncidents initState none :=
  ⟨rfl, c10_invalid_status_filter_ignored initState "urgent" rfl⟩
